import Mathlib

/-!
A shallow embedding of `src/comment.ts` of the changesets-gitlab repository:
the comment reconciliation protocol (message composition, bot-note location
with the randomized-username retry, changeset-file detection, GitLab API
error classification and the top-level `comment` orchestration), together
with theorems checking the specification's claims about it.

External collaborators (the GitLab API client, the `markdown-table` and
`human-id` npm packages, `encodeURIComponent`, the Sentry sink, environment
loading) are modelled explicitly where noted; the repository's own logic is
translated directly from the source.
-/

namespace ChangesetsGitlab

/-- Executable substring occurrence test on character lists: `listHasInfix pat l`
holds iff `pat` occurs contiguously inside `l`. -/
def listHasInfix (pat : List Char) : List Char → Bool
  | [] => pat.isEmpty
  | c :: rest => pat.isPrefixOf (c :: rest) || listHasInfix pat rest

/-- Models JavaScript `String.prototype.includes`: `strContains s pat` holds iff
`pat` occurs contiguously inside `s`. -/
def strContains (s pat : String) : Bool :=
  listHasInfix pat.data s.data

/-- Models JavaScript `String.prototype.startsWith` (and the regex anchor `^`
followed by a literal). -/
def strStartsWith (s pre : String) : Bool :=
  pre.data.isPrefixOf s.data

/-- Models JavaScript `String.prototype.endsWith` (and a literal followed by the
regex anchor `$`). -/
def strEndsWith (s suf : String) : Bool :=
  suf.data.isSuffixOf s.data

/-- Drops the first `n` characters of a string (character-based, like the
JavaScript string operations the regexes act on). -/
def strDrop (s : String) (n : Nat) : String :=
  String.mk (s.data.drop n)

/-- Drops the last `n` characters of a string. -/
def strDropRight (s : String) (n : Nat) : String :=
  String.mk (s.data.take (s.data.length - n))

/-- Models `Array.prototype.join` for a list of strings. -/
def joinSep (sep : String) : List String → String
  | [] => ""
  | [x] => x
  | x :: y :: rest => x ++ sep ++ joinSep sep (y :: rest)

/-- Uppercase hexadecimal digit for `n < 16`, as `encodeURIComponent` emits. -/
def hexDigitChar (n : Nat) : Char :=
  if n < 10 then Char.ofNat (48 + n) else Char.ofNat (55 + n)

/-- UTF-8 byte sequence of a Unicode scalar value, as `encodeURIComponent`
percent-encodes it. -/
def utf8Bytes (n : Nat) : List Nat :=
  if n < 128 then [n]
  else if n < 2048 then [192 + n / 64, 128 + n % 64]
  else if n < 65536 then [224 + n / 4096, 128 + n / 64 % 64, 128 + n % 64]
  else [240 + n / 262144, 128 + n / 4096 % 64, 128 + n / 64 % 64, 128 + n % 64]

/-- Characters that JavaScript `encodeURIComponent` leaves unescaped:
ASCII letters, digits, and `- _ . ! ~ *` together with the apostrophe and the
two round brackets (written via their code points). -/
def isUriUnreservedChar (c : Char) : Bool :=
  c.isAlpha || c.isDigit || c = '-' || c = '_' || c = '.' || c = '!' ||
    c = '~' || c = '*' || c = Char.ofNat 39 || c = Char.ofNat 40 || c = Char.ofNat 41

/-- Models the JavaScript builtin `encodeURIComponent` (an external collaborator
of the source file): unreserved characters pass through, every other character
is replaced by the percent-encoding of its UTF-8 bytes. -/
def encodeURIComponent (s : String) : String :=
  String.join (s.data.map fun c =>
    if isUriUnreservedChar c then String.mk [c]
    else String.join ((utf8Bytes c.toNat).map fun b =>
      String.mk ['%', hexDigitChar (b / 16), hexDigitChar (b % 16)]))

/-- ASCII lower-casing of one character, used to model the `i` flag of the
source's regexes. -/
def asciiLower (c : Char) : Char :=
  if 65 ≤ c.toNat && c.toNat ≤ 90 then Char.ofNat (c.toNat + 32) else c

/-- ASCII lower-casing of a string. -/
def strLower (s : String) : String :=
  String.mk (s.data.map asciiLower)

/-- The sentinel marker `generatedByBotNote` from `comment.ts`. -/
def generatedByBotNote : String := "Generated By Changesets GitLab Bot"

/-- Bump types of `@changesets/types`; the string union
`major | minor | patch | none`. -/
inductive VersionType where
  | major
  | minor
  | patch
  | none
deriving DecidableEq

/-- One entry of a release plan: a package name and its bump type
(the fields of `ComprehensiveRelease` the source reads). -/
structure Release where
  name : String
  type : VersionType
deriving DecidableEq

/-- One changeset file of a release plan; the source only reads the length of
the `changesets` array, so only an identifier is modelled. -/
structure Changeset where
  id : String
deriving DecidableEq

/-- The `ReleasePlan` shape of `@changesets/types` as used by `comment.ts`:
its `releases` entries and its `changesets` array. -/
structure ReleasePlan where
  releases : List Release
  changesets : List Changeset
deriving DecidableEq

/-- The capitalized label of a bump type, translating the object lookup
`{ major: 'Major', minor: 'Minor', patch: 'Patch' }[x.type]`; the `none` case
has no entry in that object and is unreachable behind the `publishableReleases`
filter. -/
def bumpTypeLabel : VersionType → String
  | VersionType.major => "Major"
  | VersionType.minor => "Minor"
  | VersionType.patch => "Patch"
  | VersionType.none => ""

/-- The `releasePlan.releases.filter(x => x.type !== 'none')` computation of
`getReleasePlanMessage`. -/
def publishableReleases (releasePlan : ReleasePlan) : List Release :=
  releasePlan.releases.filter fun x => x.type != VersionType.none

/-- One row of a rendered Markdown table. -/
def markdownTableRow (cells : List String) : String :=
  "| " ++ joinSep " | " cells ++ " |"

/-- Models the external `markdown-table` npm collaborator (the spec treats
Markdown table formatting as plumbing outside the core): one line per row,
with a delimiter line after the header row. -/
def markdownTable : List (List String) → String
  | [] => ""
  | header :: body =>
      joinSep "\n"
        (markdownTableRow header ::
          markdownTableRow (header.map fun _ => "---") :: body.map markdownTableRow)

/-- The rows handed to `markdownTable` by `getReleasePlanMessage`: a header row
followed by `[name, capitalized type]` for each publishable release. -/
def releasePlanTableRows (releasePlan : ReleasePlan) : List (List String) :=
  ["Name", "Type"] ::
    (publishableReleases releasePlan).map fun x => [x.name, bumpTypeLabel x.type]

/-- The interpolated `<summary>` text of `getReleasePlanMessage`: the changeset
count decides between a package count and the literal `no changesets`. -/
def releasePlanSummary (releasePlan : ReleasePlan) : String :=
  if releasePlan.changesets.length > 0 then
    "changesets to release " ++
      (if (publishableReleases releasePlan).length = 1 then "1 package"
       else toString (publishableReleases releasePlan).length ++ " packages")
  else "no changesets"

/-- The interpolated body of the collapsible block of `getReleasePlanMessage`:
the table when at least one release is publishable, otherwise the explanatory
placeholder sentence. -/
def releasePlanDetails (releasePlan : ReleasePlan) : String :=
  if (publishableReleases releasePlan).length > 0 then
    markdownTable (releasePlanTableRows releasePlan)
  else
    "When changesets are added to this MR, you\x27ll see the packages that this MR includes changesets for and the associated semver types"

/-- The `getReleasePlanMessage` function of `comment.ts`: empty for a `null`
plan, otherwise the collapsible summary block assembled from the template
literal of lines 49-65 of the source. -/
def getReleasePlanMessage : Option ReleasePlan → String
  | Option.none => ""
  | Option.some releasePlan =>
      "<details><summary>This MR includes " ++ releasePlanSummary releasePlan ++
        "</summary>\n\n  " ++ releasePlanDetails releasePlan ++ "\n\n</details>"

/-- The `getAbsentMessage` template of `comment.ts` (lines 68-85). -/
def getAbsentMessage (commitSha addChangesetUrl : String)
    (releasePlan : Option ReleasePlan) : String :=
  "###  ⚠️  No Changeset found\n\nLatest commit: " ++ commitSha ++
    "\n\nMerging this MR will not cause a version bump for any packages. If these changes should not result in a new version, you\x27re good to go. **If these changes should result in a version bump, you need to add a changeset.**\n\n" ++
    getReleasePlanMessage releasePlan ++
    "\n\n[Click here to learn what changesets are, and how to add one](https://github.com/changesets/changesets/blob/master/docs/adding-a-changeset.md).\n\n[Click here if you\x27re a maintainer who wants to add a changeset to this MR](" ++
    addChangesetUrl ++ ")\n\n__" ++ generatedByBotNote ++ "__\n"

/-- The `getApproveMessage` template of `comment.ts` (lines 87-104). -/
def getApproveMessage (commitSha addChangesetUrl : String)
    (releasePlan : Option ReleasePlan) : String :=
  "###  🦋  Changeset detected\n\nLatest commit: " ++ commitSha ++
    "\n\n**The changes in this MR will be included in the next version bump.**\n\n" ++
    getReleasePlanMessage releasePlan ++
    "\n\nNot sure what this means? [Click here  to learn what changesets are](https://github.com/changesets/changesets/blob/master/docs/adding-a-changeset.md).\n\n[Click here if you\x27re a maintainer who wants to add another changeset to this MR](" ++
    addChangesetUrl ++ ")\n\n__" ++ generatedByBotNote ++ "__\n"

/-- The `getNewChangesetTemplate` function of `comment.ts` (lines 106-112). -/
def getNewChangesetTemplate (changedPackages : List String) (title : String) : String :=
  encodeURIComponent
    ("---\n" ++
      joinSep "\n" (changedPackages.map fun x => "\x22" ++ x ++ "\x22: patch") ++
      "\n---\n\n" ++ title ++ "\n")

/-- The author object of a GitLab note, with the single field the source reads. -/
structure Author where
  username : String
deriving DecidableEq

/-- A GitLab note as far as `comment.ts` inspects it: its id, its author and
its body (`NoteSchema` / `DiscussionNoteSchema` / `MergeRequestNoteSchema`). -/
structure NoteRec where
  id : Nat
  author : Author
  body : String
deriving DecidableEq

/-- One element of the listing `getNoteInfo` iterates over: either a flat merge
request note (which carries a `noteable_type` field, checked by `isMrNote`) or a
discussion (whose `notes` array may be absent). -/
inductive DiscussionOrNote where
  | mrNote (noteableType : String) (note : NoteRec)
  | discussion (discussionId : String) (notes : Option (List NoteRec))
deriving DecidableEq

/-- The `isMrNote` type guard of `comment.ts` (lines 114-118): an element is a
flat merge request note iff it carries `noteable_type === 'MergeRequest'`. -/
def isMrNote : DiscussionOrNote → Bool
  | DiscussionOrNote.mrNote noteableType _ => noteableType = "MergeRequest"
  | DiscussionOrNote.discussion _ _ => false

/-- ASCII alphanumeric test: the character class `[\da-z]` under the regex `i`
flag. -/
def isAsciiAlphanum (c : Char) : Bool :=
  c.isAlpha || c.isDigit

/-- The regex word character class `\w`, i.e. `[A-Za-z0-9_]`. -/
def isWordChar (c : Char) : Bool :=
  c.isAlpha || c.isDigit || c = '_'

/-- Case-insensitive match of the capture-group body of
`RANDOM_BOT_NAME_PATTERN`, i.e. of `(?:project|group)_\d+_bot\w*`: the literal
alternation, an underscore, at least one digit, the literal `_bot`, then any
word characters. The digit run is maximal in the regex and here alike, since
the character after it must be the non-digit `_`. -/
def randomBotBaseMatches (s : String) : Bool :=
  let t := strLower s
  let afterScope :=
    if strStartsWith t "project_" then Option.some (strDrop t 8)
    else if strStartsWith t "group_" then Option.some (strDrop t 6)
    else Option.none
  match afterScope with
  | Option.none => false
  | Option.some rest =>
      let digits := rest.data.takeWhile Char.isDigit
      decide (0 < digits.length) &&
        strStartsWith (String.mk (rest.data.drop digits.length)) "_bot" &&
        (rest.data.drop (digits.length + 4)).all isWordChar

/-- The match of `RANDOM_BOT_NAME_PATTERN` (line 120 of `comment.ts`), i.e. of
`/^((?:project|group)_\d+_bot\w*)_[\da-z]+$/i`, returning capture group 1 as
`username.match(...)?.[1]` does. Because `\w*` is greedy, `[\da-z]+` rejects
underscores and both ends are anchored, the pattern matches exactly when the
input splits at its last underscore into a base matching the group body and a
nonempty alphanumeric suffix; the returned capture keeps the original casing. -/
def randomBotNameMatch (s : String) : Option String :=
  let cs := s.data
  let revSuffix := cs.reverse.takeWhile fun c => !(c = '_')
  if revSuffix.length = cs.length then Option.none
  else
    let base := String.mk ((cs.reverse.drop (revSuffix.length + 1)).reverse)
    if decide (0 < revSuffix.length) && revSuffix.all isAsciiAlphanum &&
        randomBotBaseMatches base then
      Option.some base
    else Option.none

/-- The `isChangesetBotNote` predicate of `comment.ts` (lines 122-132): the
author username matches exactly — or, when `random` is set, via
`RANDOM_BOT_NAME_PATTERN` with the captured base compared to the username — and
the body contains the sentinel marker. -/
def isChangesetBotNote (note : NoteRec) (username : String) (random : Bool) : Bool :=
  (note.author.username == username ||
      (random && (randomBotNameMatch note.author.username == Option.some username))) &&
    strContains note.body generatedByBotNote

/-- A located bot note as `getNoteInfo` returns it: `discussionId` is present
for a note found inside a discussion thread and absent for a flat note. -/
structure NoteInfo where
  discussionId : Option String
  noteId : Nat
deriving DecidableEq

/-- The `for (const discussionOrNote of discussionOrNotes)` loop of
`getNoteInfo` (lines 163-187): a flat merge request note is matched with the
current `random` flag; an element that is not a flat note is skipped when its
`notes` array is absent, and otherwise its nested notes are searched with
`isChangesetBotNote(note, username)` — the `random` argument omitted, hence
`false`. The first structural match in listing order wins. -/
def findBotNoteInList (username : String) (random : Bool) :
    List DiscussionOrNote → Option NoteInfo
  | [] => Option.none
  | discussionOrNote :: rest =>
    match discussionOrNote with
    | DiscussionOrNote.mrNote noteableType note =>
        if noteableType = "MergeRequest" then
          if isChangesetBotNote note username random then
            Option.some ⟨Option.none, note.id⟩
          else findBotNoteInList username random rest
        else findBotNoteInList username random rest
    | DiscussionOrNote.discussion discussionId notes =>
        match notes with
        | Option.none => findBotNoteInList username random rest
        | Option.some ns =>
            match ns.find? fun note => isChangesetBotNote note username false with
            | Option.some changesetBotNote =>
                Option.some ⟨Option.some discussionId, changesetBotNote.id⟩
            | Option.none => findBotNoteInList username random rest

/-- The `getNoteInfo` function of `comment.ts` (lines 134-196) over the listing
the API returned for the configured comment type. The source ends with
`return random ? null : getNoteInfo(api, mrIid, commentType, true)`; that
single self-call is unrolled here (its own retry guard immediately returns
`null`), which keeps the definition kernel-reducible. -/
def getNoteInfo (discussionOrNotes : List DiscussionOrNote) (username : String)
    (random : Bool) : Option NoteInfo :=
  match findBotNoteInList username random discussionOrNotes with
  | Option.some info => Option.some info
  | Option.none =>
      if random then Option.none
      else
        match findBotNoteInList username true discussionOrNotes with
        | Option.some info => Option.some info
        | Option.none => Option.none

/-- One changed file of `MergeRequestChangesSchema`, with the two fields
`hasChangesetBeenAdded` reads. -/
structure ChangeFile where
  new_file : Bool
  new_path : String
deriving DecidableEq

/-- The character class of an unflagged JavaScript regex `.`: anything but a
line terminator. -/
def isRegexDotChar (c : Char) : Bool :=
  !(c = '\n' || c = '\r' || c = Char.ofNat 0x2028 || c = Char.ofNat 0x2029)

/-- The test `/^\.changeset\/.+\.md$/.test(path)` of `hasChangesetBeenAdded`:
the literal prefix `.changeset/`, at least one non-line-terminator character,
and the literal suffix `.md`, both ends anchored. -/
def changesetFileTest (s : String) : Bool :=
  strStartsWith s ".changeset/" && strEndsWith s ".md" &&
    (let mid := strDropRight (strDrop s 11) 3
     decide (0 < mid.data.length) && mid.data.all isRegexDotChar)

/-- The `hasChangesetBeenAdded` function of `comment.ts` (lines 198-209) over
the resolved `changes` array. -/
def hasChangesetBeenAdded (changes : List ChangeFile) : Bool :=
  changes.any fun file =>
    file.new_file && changesetFileTest file.new_path &&
      !(file.new_path == ".changeset/README.md")

/-- The CI environment variables destructured by `comment` (lines 242-255);
`undefined` variables are modelled by the empty string, matching the falsiness
checks the source performs on them. -/
structure Env where
  CI_MERGE_REQUEST_SOURCE_BRANCH_NAME : String
  CI_MERGE_REQUEST_IID : String
  CI_MERGE_REQUEST_PROJECT_URL : String
  CI_MERGE_REQUEST_SOURCE_BRANCH_SHA : String
  CI_MERGE_REQUEST_TITLE : String
  GITLAB_COMMENT_TYPE : String
  GITLAB_ADD_CHANGESET_MESSAGE : String
deriving DecidableEq

/-- Outcome of the external `getChangedPackages` collaborator as `comment`
distinguishes it in its `.catch` handler (lines 280-291): success, a
`ValidationError` carrying a message, or any other failure. -/
inductive DiscoveryResult where
  | ok (changedPackages : List String) (releasePlan : Option ReleasePlan)
  | validationError (message : String)
  | otherError
deriving DecidableEq

/-- The collapsible error block `errFromFetchingChangedFiles` is set to for a
`ValidationError` (line 282 of `comment.ts`). -/
def validationErrorBlock (message : String) : String :=
  "<details><summary>💥 An error occurred when fetching the changed packages and changesets in this MR</summary>\n\n```\n" ++
    message ++ "\n```\n\n</details>\n"

/-- The data the `.catch` handler of `getChangedPackages` leaves behind:
the resolved packages and plan, the error block string (empty unless a
`ValidationError` was caught), and whether the failure was reported to the
Sentry sink via `captureException`. -/
structure ResolvedDiscovery where
  changedPackages : List String
  releasePlan : Option ReleasePlan
  errFromFetchingChangedFiles : String
  reportedToSink : Bool
deriving DecidableEq

/-- The `.catch` handler of lines 280-291: a `ValidationError` fills the error
block, any other failure is reported via `captureException`; both degrade to
the `['@fake-scope/fake-pkg']` placeholder with a `null` release plan. -/
def resolveDiscovery : DiscoveryResult → ResolvedDiscovery
  | DiscoveryResult.ok changedPackages releasePlan =>
      ⟨changedPackages, releasePlan, "", false⟩
  | DiscoveryResult.validationError message =>
      ⟨["@fake-scope/fake-pkg"], Option.none, validationErrorBlock message, false⟩
  | DiscoveryResult.otherError =>
      ⟨["@fake-scope/fake-pkg"], Option.none, "", true⟩

/-- The `addChangesetUrl` template literal of `comment` (lines 294-306); the
`humanId(...)` slug is an external random input and is passed in. The source
appends `&commit_message=...` exactly when `GITLAB_ADD_CHANGESET_MESSAGE` is
truthy, i.e. nonempty. -/
def addChangesetUrl (e : Env) (slug : String) (changedPackages : List String) : String :=
  e.CI_MERGE_REQUEST_PROJECT_URL ++ "/-/new/" ++
    e.CI_MERGE_REQUEST_SOURCE_BRANCH_NAME ++ "?file_name=.changeset/" ++ slug ++
    ".md&file=" ++ getNewChangesetTemplate changedPackages e.CI_MERGE_REQUEST_TITLE ++
    (if e.GITLAB_ADD_CHANGESET_MESSAGE = "" then ""
     else "&commit_message=" ++ encodeURIComponent e.GITLAB_ADD_CHANGESET_MESSAGE)

/-- The per-run inputs of `comment`: the environment, the username resolved by
`getUsername`, the discussions-or-notes listing the API returns for the
configured comment type, the resolved changed-files `changes` array, the
outcome of `getChangedPackages`, and the random `humanId` slug. -/
structure CommentInputs where
  env : Env
  username : String
  discussionOrNotes : List DiscussionOrNote
  changedFiles : List ChangeFile
  discovery : DiscoveryResult
  slug : String
deriving DecidableEq

/-- The `prComment` string of `comment` (lines 308-312): the approve or absent
message for the latest commit, with the discovery error block appended. -/
def commentBody (i : CommentInputs) : String :=
  (if hasChangesetBeenAdded i.changedFiles then
    getApproveMessage i.env.CI_MERGE_REQUEST_SOURCE_BRANCH_SHA
      (addChangesetUrl i.env i.slug (resolveDiscovery i.discovery).changedPackages)
      (resolveDiscovery i.discovery).releasePlan
  else
    getAbsentMessage i.env.CI_MERGE_REQUEST_SOURCE_BRANCH_SHA
      (addChangesetUrl i.env i.slug (resolveDiscovery i.discovery).changedPackages)
      (resolveDiscovery i.discovery).releasePlan) ++
    (resolveDiscovery i.discovery).errFromFetchingChangedFiles

/-- The single API write `comment` performs at its end: one of the four calls
of the `switch` on `GITLAB_COMMENT_TYPE` (lines 314-351), carrying the body it
sends. `editDiscussionNote` carries the located `discussionId` as the source
passes `noteInfo.discussionId` along. -/
inductive WriteAction where
  | editDiscussionNote (discussionId : Option String) (noteId : Nat) (body : String)
  | createDiscussion (body : String)
  | editNote (noteId : Nat) (body : String)
  | createNote (body : String)
deriving DecidableEq

/-- The body string a write action sends. -/
def WriteAction.bodyOf : WriteAction → String
  | WriteAction.editDiscussionNote _ _ body => body
  | WriteAction.createDiscussion body => body
  | WriteAction.editNote _ body => body
  | WriteAction.createNote body => body

/-- Whether a write action creates a new comment (as opposed to editing an
existing one in place). -/
def WriteAction.isCreate : WriteAction → Bool
  | WriteAction.createDiscussion _ => true
  | WriteAction.createNote _ => true
  | WriteAction.editDiscussionNote _ _ _ => false
  | WriteAction.editNote _ _ => false

/-- Observable outcome of one `comment()` run: the two silent early returns,
the single write call, or the thrown configuration error of the `default`
switch branch. -/
inductive CommentResult where
  | skippedNonMr
  | skippedReleaseBranch
  | wrote (action : WriteAction)
  | configError (message : String)
deriving DecidableEq

/-- The `comment` orchestration of `comment.ts` (lines 241-351): the early
returns for a non-MR context and for a `changeset-release` source branch, the
note lookup, the body composition, and the `switch` on `GITLAB_COMMENT_TYPE`
deciding between editing the located note and creating a new one. -/
def comment (i : CommentInputs) : CommentResult :=
  if i.env.CI_MERGE_REQUEST_SOURCE_BRANCH_NAME = "" then
    CommentResult.skippedNonMr
  else if strStartsWith i.env.CI_MERGE_REQUEST_SOURCE_BRANCH_NAME "changeset-release" then
    CommentResult.skippedReleaseBranch
  else
    let noteInfo := getNoteInfo i.discussionOrNotes i.username false
    let prComment := commentBody i
    if i.env.GITLAB_COMMENT_TYPE = "discussion" then
      match noteInfo with
      | Option.some info =>
          CommentResult.wrote
            (WriteAction.editDiscussionNote info.discussionId info.noteId prComment)
      | Option.none => CommentResult.wrote (WriteAction.createDiscussion prComment)
    else if i.env.GITLAB_COMMENT_TYPE = "note" then
      match noteInfo with
      | Option.some info =>
          CommentResult.wrote (WriteAction.editNote info.noteId prComment)
      | Option.none => CommentResult.wrote (WriteAction.createNote prComment)
    else
      CommentResult.configError
        ("Invalid comment type \x22" ++ i.env.GITLAB_COMMENT_TYPE ++
          "\x22, should be \x22discussion\x22 or \x22note\x22")

/-- Model of the JavaScript value caught by the `catch` of `comment`, as far as
`isGitLabAPIError` inspects it: a value whose `Object.prototype.toString` is
`[object Error]` carries a `cause`, and anything else does not classify. -/
inductive CauseVal where
  | undef
  | nullV
  | objV (keys : List String)
  | truthyNonObject
  | falsyNonObject
deriving DecidableEq

/-- A caught value: an `Error` with its `cause` (possibly absent), or a value
that is not an `Error` at all. -/
inductive JsVal where
  | errorV (cause : CauseVal)
  | nonError
deriving DecidableEq

/-- JavaScript truthiness of a `cause` value: objects and truthy primitives are
truthy; `undefined`, `null` and falsy primitives are not. -/
def causeTruthy : CauseVal → Bool
  | CauseVal.objV _ => true
  | CauseVal.truthyNonObject => true
  | _ => false

/-- The `typeof cause === 'object'` test: objects and `null` satisfy it. -/
def causeTypeofObject : CauseVal → Bool
  | CauseVal.objV _ => true
  | CauseVal.nullV => true
  | _ => false

/-- The own enumerable keys `Object.keys(cause)` returns; only reached for a
truthy object. -/
def causeOwnKeys : CauseVal → List String
  | CauseVal.objV keys => keys
  | _ => []

/-- The `GITLAB_API_ERROR_CAUSE_KEYS` set of `comment.ts` (lines 222-226). -/
def GITLAB_API_ERROR_CAUSE_KEYS : List String :=
  ["description", "request", "response"]

/-- The `isGitLabAPIError` predicate of `comment.ts` (lines 231-238):
`toString.call(value) === '[object Error]'`, a truthy `cause` of object type,
and every own key of the cause contained in the allowed key set. -/
def isGitLabAPIError : JsVal → Bool
  | JsVal.nonError => false
  | JsVal.errorV cause =>
      causeTruthy cause && causeTypeofObject cause &&
        (causeOwnKeys cause).all fun key => GITLAB_API_ERROR_CAUSE_KEYS.contains key

/-- What the `catch` block of `comment` (lines 352-369) does with a caught
value: best-effort diagnostic logging exactly when `isGitLabAPIError`
classifies it, then `throw err` re-raises the original value unchanged. -/
structure CatchOutcome where
  loggedDiagnostics : Bool
  rethrown : JsVal
deriving DecidableEq

/-- The `catch` block of `comment` as a function of the caught value. -/
def commentCatch (err : JsVal) : CatchOutcome :=
  ⟨isGitLabAPIError err, err⟩

/-- Specification-side description of how one listing element is matched, per
the Note Locator contract: a flat note (a note with `noteable_type` equal to
`MergeRequest`) qualifies by exact username or — only when the pass accepts
randomized names — by the randomized-service-account pattern, with the marker
present, yielding a handle without discussion id; a discussion thread is
searched among its nested notes with exact-username matching only (the random
flag is never applied there), yielding a handle with its discussion id. -/
def itemBotNoteHandle (username : String) (random : Bool) :
    DiscussionOrNote → Option NoteInfo
  | DiscussionOrNote.mrNote noteableType note =>
      if noteableType = "MergeRequest" then
        if isChangesetBotNote note username random then
          Option.some ⟨Option.none, note.id⟩
        else Option.none
      else Option.none
  | DiscussionOrNote.discussion discussionId notes =>
      match notes with
      | Option.none => Option.none
      | Option.some ns =>
          match ns.find? fun note => isChangesetBotNote note username false with
          | Option.some note => Option.some ⟨Option.some discussionId, note.id⟩
          | Option.none => Option.none

/-- Specification-side single scan pass: the first structurally matching item
in listing order wins (`List.findSome?`). -/
def locatePassSpec (items : List DiscussionOrNote) (username : String)
    (random : Bool) : Option NoteInfo :=
  items.findSome? (itemBotNoteHandle username random)

/-- Specification-side two-pass locator: a first pass with exact-username
matching on flat notes; if it finds nothing, the whole scan is retried exactly
once also accepting the randomized pattern on flat notes; if both passes fail
the result is `none`. -/
def locateSpec (items : List DiscussionOrNote) (username : String) : Option NoteInfo :=
  match locatePassSpec items username false with
  | Option.some info => Option.some info
  | Option.none => locatePassSpec items username true

/-- The write action the `switch` performs when a note handle was located,
as a function of the configured comment type. -/
def editActionFor (commentType : String) (info : NoteInfo) (body : String) : WriteAction :=
  if commentType = "discussion" then
    WriteAction.editDiscussionNote info.discussionId info.noteId body
  else WriteAction.editNote info.noteId body

/-- The write action the `switch` performs when no note handle was located. -/
def createActionFor (commentType : String) (body : String) : WriteAction :=
  if commentType = "discussion" then WriteAction.createDiscussion body
  else WriteAction.createNote body

/-! ### Helper lemmas about substring containment -/

theorem listHasInfix_iff (pat l : List Char) :
    listHasInfix pat l = true ↔ pat <:+: l := by
  induction l with
  | nil =>
    simp [listHasInfix, List.isEmpty_iff, List.infix_nil]
  | cons c rest ih =>
    simp [listHasInfix, List.infix_cons_iff, ih, Bool.or_eq_true,
      List.isPrefixOf_iff_prefix]

theorem strContains_iff (s pat : String) :
    strContains s pat = true ↔ pat.data <:+: s.data := by
  simp [strContains, listHasInfix_iff]

theorem strContains_append_middle (a m b : String) :
    strContains (a ++ m ++ b) m = true := by
  rw [strContains_iff]
  exact ⟨a.data, b.data, by simp⟩

theorem strContains_append_of_left {a m : String} (b : String)
    (h : strContains a m = true) : strContains (a ++ b) m = true := by
  rw [strContains_iff] at h ⊢
  obtain ⟨u, v, huv⟩ := h
  exact ⟨u, v ++ b.data, by simp [← huv]⟩

theorem strContains_append_of_right {b m : String} (a : String)
    (h : strContains b m = true) : strContains (a ++ b) m = true := by
  rw [strContains_iff] at h ⊢
  obtain ⟨u, v, huv⟩ := h
  exact ⟨a.data ++ u, v, by simp [← huv]⟩

theorem strContains_self (m : String) : strContains m m = true := by
  rw [strContains_iff]

theorem marker_in_absentMessage (commitSha url : String) (plan : Option ReleasePlan) :
    strContains (getAbsentMessage commitSha url plan) generatedByBotNote = true := by
  unfold getAbsentMessage
  exact strContains_append_middle _ _ _

theorem marker_in_approveMessage (commitSha url : String) (plan : Option ReleasePlan) :
    strContains (getApproveMessage commitSha url plan) generatedByBotNote = true := by
  unfold getApproveMessage
  exact strContains_append_middle _ _ _

theorem marker_in_commentBody (i : CommentInputs) :
    strContains (commentBody i) generatedByBotNote = true := by
  unfold commentBody
  cases h : hasChangesetBeenAdded i.changedFiles
  · simp only [h, Bool.false_eq_true, if_false]
    exact strContains_append_of_left _ (marker_in_absentMessage _ _ _)
  · simp only [h, if_true]
    exact strContains_append_of_left _ (marker_in_approveMessage _ _ _)

/-! ### Helper lemmas about the note locator -/

theorem findBotNoteInList_eq_locatePassSpec (username : String) (random : Bool)
    (items : List DiscussionOrNote) :
    findBotNoteInList username random items = locatePassSpec items username random := by
  induction items with
  | nil => rfl
  | cons head tail ih =>
    cases head with
    | mrNote noteableType note =>
      by_cases h1 : noteableType = "MergeRequest"
      · cases h2 : isChangesetBotNote note username random
        · simp [findBotNoteInList, locatePassSpec, itemBotNoteHandle, h1, h2,
            List.findSome?_cons, ih]
        · simp [findBotNoteInList, locatePassSpec, itemBotNoteHandle, h1, h2,
            List.findSome?_cons]
      · simp [findBotNoteInList, locatePassSpec, itemBotNoteHandle, h1,
          List.findSome?_cons, ih]
    | discussion discussionId notes =>
      cases notes with
      | none =>
        simp [findBotNoteInList, locatePassSpec, itemBotNoteHandle,
          List.findSome?_cons, ih]
      | some ns =>
        cases h2 : ns.find? fun note => isChangesetBotNote note username false
        · simp [findBotNoteInList, locatePassSpec, itemBotNoteHandle, h2,
            List.findSome?_cons, ih]
        · simp [findBotNoteInList, locatePassSpec, itemBotNoteHandle, h2,
            List.findSome?_cons]

/-! ### Claim theorems -/

/-- C2: `getNoteInfo` implements a two-pass scan: a first pass matching flat
notes by exact author username only; if it finds nothing, the entire scan is
retried exactly once also accepting the randomized-service-account pattern on
flat notes; nested notes inside discussion threads are matched by exact
username only in both passes; if both passes fail the result is null; the
first structurally matching item in listing order wins (`List.findSome?`
semantics of `locateSpec`). -/
theorem getNoteInfo_two_pass (items : List DiscussionOrNote) (username : String) :
    getNoteInfo items username false = locateSpec items username := by
  unfold getNoteInfo locateSpec
  rw [findBotNoteInList_eq_locatePassSpec, findBotNoteInList_eq_locatePassSpec]
  cases locatePassSpec items username false
  · cases locatePassSpec items username true <;> simp
  · simp

/-- C4: the randomized-name matcher accepts `project_123_bot7x_ab12` against
the resolved bot username `project_123_bot7x` (stripping the trailing random
suffix yields the base, and only the extracted base is compared), and accepts
no pattern variant for `someoneelse` against any username. -/
theorem random_bot_name_matcher_examples :
    randomBotNameMatch "project_123_bot7x_ab12" = Option.some "project_123_bot7x" ∧
    randomBotNameMatch "someoneelse" = Option.none ∧
    isChangesetBotNote
        ⟨1, ⟨"project_123_bot7x_ab12"⟩, "hi __Generated By Changesets GitLab Bot__"⟩
        "project_123_bot7x" true = true ∧
    ∀ username : String,
      (randomBotNameMatch "someoneelse" == Option.some username) = false := by
  refine ⟨by decide, by decide, by decide, ?_⟩
  intro username
  rw [show randomBotNameMatch "someoneelse" = Option.none from by decide]
  rfl

/-- C3: every comment body the bot writes — both message variants, with any
release plan and any appended error block — contains the literal sentinel
`Generated By Changesets GitLab Bot`; conversely a note whose body lacks the
sentinel is never classified by `isChangesetBotNote`, whatever its author
username and whatever the random flag. -/
theorem sentinel_marker_invariant :
    (∀ (commitSha url : String) (plan : Option ReleasePlan) (errBlock : String),
        strContains (getApproveMessage commitSha url plan ++ errBlock)
            generatedByBotNote = true ∧
        strContains (getAbsentMessage commitSha url plan ++ errBlock)
            generatedByBotNote = true) ∧
    (∀ (note : NoteRec) (username : String) (random : Bool),
        strContains note.body generatedByBotNote = false →
        isChangesetBotNote note username random = false) := by
  constructor
  · intro commitSha url plan errBlock
    exact ⟨strContains_append_of_left _ (marker_in_approveMessage _ _ _),
      strContains_append_of_left _ (marker_in_absentMessage _ _ _)⟩
  · intro note username random h
    simp [isChangesetBotNote, h]

/-- Witness for C3 at a concrete note: a body without the sentinel, authored by
the exact bot username, is still rejected. -/
theorem sentinel_marker_invariant_witness :
    strContains (NoteRec.mk 7 ⟨"bot-user"⟩ "just a user comment").body
        generatedByBotNote = false ∧
    isChangesetBotNote ⟨7, ⟨"bot-user"⟩, "just a user comment"⟩ "bot-user" true = false := by
  refine ⟨by decide, ?_⟩
  exact sentinel_marker_invariant.2 ⟨7, ⟨"bot-user"⟩, "just a user comment"⟩
    "bot-user" true (by decide)

/-- C8: `hasChangesetBeenAdded` holds iff some changed file is newly added,
matches the `.changeset/` + `.md` pattern and is not the changeset README; in
particular a newly added `.changeset/foo.md` counts while
`.changeset/README.md` and a modified (non-new) file do not. -/
theorem hasChangesetBeenAdded_spec :
    (∀ changes : List ChangeFile,
        hasChangesetBeenAdded changes = true ↔
          ∃ f, f ∈ changes ∧ f.new_file = true ∧ changesetFileTest f.new_path = true ∧
            f.new_path ≠ ".changeset/README.md") ∧
    hasChangesetBeenAdded [⟨true, ".changeset/foo.md"⟩] = true ∧
    hasChangesetBeenAdded [⟨true, ".changeset/README.md"⟩] = false ∧
    hasChangesetBeenAdded [⟨false, ".changeset/foo.md"⟩] = false := by
  refine ⟨?_, by decide, by decide, by decide⟩
  intro changes
  simp [hasChangesetBeenAdded, List.any_eq_true, Bool.and_eq_true, and_assoc]

/-- C9: with a comment mode that is neither `discussion` nor `note`, `comment`
raises the configuration error of the `default` switch branch and performs no
write. -/
theorem invalid_comment_type_config_error (i : CommentInputs)
    (hbranch : i.env.CI_MERGE_REQUEST_SOURCE_BRANCH_NAME ≠ "")
    (hrel : strStartsWith i.env.CI_MERGE_REQUEST_SOURCE_BRANCH_NAME
        "changeset-release" = false)
    (h1 : i.env.GITLAB_COMMENT_TYPE ≠ "discussion")
    (h2 : i.env.GITLAB_COMMENT_TYPE ≠ "note") :
    comment i = CommentResult.configError
        ("Invalid comment type \x22" ++ i.env.GITLAB_COMMENT_TYPE ++
          "\x22, should be \x22discussion\x22 or \x22note\x22") ∧
    ∀ action, comment i ≠ CommentResult.wrote action := by
  have hc : comment i = CommentResult.configError
      ("Invalid comment type \x22" ++ i.env.GITLAB_COMMENT_TYPE ++
        "\x22, should be \x22discussion\x22 or \x22note\x22") := by
    simp [comment, hbranch, hrel, h1, h2]
  exact ⟨hc, fun action h => by rw [hc] at h; exact CommentResult.noConfusion h⟩

/-- Witness for C9 at a concrete run with comment mode `thread`. -/
theorem invalid_comment_type_config_error_witness :
    comment ⟨⟨"feature-x", "5", "https://gitlab.example.com/g/p", "abc123",
        "My change", "thread", ""⟩, "bot-user", [], [],
        DiscoveryResult.ok ["pkg-a"] Option.none, "slug-one"⟩ =
      CommentResult.configError
        "Invalid comment type \x22thread\x22, should be \x22discussion\x22 or \x22note\x22" := by
  exact (invalid_comment_type_config_error _ (by decide) (by decide)
    (by decide) (by decide)).1

/-- C1: when a run of `comment` reaches the write step (merge-request context,
non-release branch, recognized comment mode), exactly one write results: with a
located note handle the existing note/discussion note is edited in place and
nothing is created; with no handle exactly one new comment is created and its
body contains the sentinel marker. -/
theorem comment_single_write (i : CommentInputs)
    (hbranch : i.env.CI_MERGE_REQUEST_SOURCE_BRANCH_NAME ≠ "")
    (hrel : strStartsWith i.env.CI_MERGE_REQUEST_SOURCE_BRANCH_NAME
        "changeset-release" = false)
    (htype : i.env.GITLAB_COMMENT_TYPE = "discussion" ∨
        i.env.GITLAB_COMMENT_TYPE = "note") :
    (∀ info, getNoteInfo i.discussionOrNotes i.username false = Option.some info →
        comment i = CommentResult.wrote
            (editActionFor i.env.GITLAB_COMMENT_TYPE info (commentBody i)) ∧
        (editActionFor i.env.GITLAB_COMMENT_TYPE info (commentBody i)).isCreate = false) ∧
    (getNoteInfo i.discussionOrNotes i.username false = Option.none →
        comment i = CommentResult.wrote
            (createActionFor i.env.GITLAB_COMMENT_TYPE (commentBody i)) ∧
        (createActionFor i.env.GITLAB_COMMENT_TYPE (commentBody i)).isCreate = true ∧
        strContains ((createActionFor i.env.GITLAB_COMMENT_TYPE (commentBody i)).bodyOf)
            generatedByBotNote = true) := by
  constructor
  · intro info hinfo
    rcases htype with h | h <;>
      simp [comment, hbranch, hrel, h, hinfo, editActionFor, WriteAction.isCreate]
  · intro hnone
    rcases htype with h | h <;>
      simp [comment, hbranch, hrel, h, hnone, createActionFor, WriteAction.isCreate,
        WriteAction.bodyOf, marker_in_commentBody]

/-- A sample environment configured for `note` mode. -/
def sampleEnvNote : Env :=
  ⟨"feature-x", "5", "https://gitlab.example.com/group/proj", "abc123",
    "My change", "note", ""⟩

/-- A prior bot note carrying the sentinel marker. -/
def sampleBotNote : NoteRec :=
  ⟨10, ⟨"bot-user"⟩, "x __Generated By Changesets GitLab Bot__"⟩

/-- A run whose listing already contains the bot note. -/
def sampleInputsExisting : CommentInputs :=
  ⟨sampleEnvNote, "bot-user", [DiscussionOrNote.mrNote "MergeRequest" sampleBotNote],
    [], DiscoveryResult.ok ["pkg-a"] Option.none, "slug-one"⟩

/-- A run whose listing contains no prior bot comment. -/
def sampleInputsFresh : CommentInputs :=
  ⟨sampleEnvNote, "bot-user", [], [], DiscoveryResult.ok ["pkg-a"] Option.none,
    "slug-one"⟩

/-- Witness for C1: at the sample runs, the existing note is edited in place,
and the fresh run creates one note whose body carries the sentinel. -/
theorem comment_single_write_witness :
    comment sampleInputsExisting = CommentResult.wrote
        (editActionFor "note" ⟨Option.none, 10⟩ (commentBody sampleInputsExisting)) ∧
    comment sampleInputsFresh = CommentResult.wrote
        (createActionFor "note" (commentBody sampleInputsFresh)) ∧
    strContains ((createActionFor "note" (commentBody sampleInputsFresh)).bodyOf)
        generatedByBotNote = true := by
  have h1 := (comment_single_write sampleInputsExisting (by decide) (by decide)
      (Or.inr rfl)).1 ⟨Option.none, 10⟩ (by decide)
  have h2 := (comment_single_write sampleInputsFresh (by decide) (by decide)
      (Or.inr rfl)).2 (by decide)
  exact ⟨h1.1, h2.1, h2.2.2⟩

/-- C7: a validation failure of changed-package discovery does not abort the
run — the write still happens with the composed body; that body contains the
collapsible validation error block and still contains the changeset-status
block; the discovery result degrades to the `@fake-scope/fake-pkg` placeholder
and is not reported to the sink, while any other discovery failure is reported
to the sink and degrades to the same placeholder with no error block. -/
theorem discovery_validation_error_recovery (i : CommentInputs) (message : String)
    (hdisc : i.discovery = DiscoveryResult.validationError message)
    (hbranch : i.env.CI_MERGE_REQUEST_SOURCE_BRANCH_NAME ≠ "")
    (hrel : strStartsWith i.env.CI_MERGE_REQUEST_SOURCE_BRANCH_NAME
        "changeset-release" = false)
    (htype : i.env.GITLAB_COMMENT_TYPE = "discussion" ∨
        i.env.GITLAB_COMMENT_TYPE = "note") :
    (∃ action, comment i = CommentResult.wrote action ∧
        action.bodyOf = commentBody i) ∧
    strContains (commentBody i) (validationErrorBlock message) = true ∧
    (hasChangesetBeenAdded i.changedFiles = true →
        strContains (commentBody i) "Changeset detected" = true) ∧
    (hasChangesetBeenAdded i.changedFiles = false →
        strContains (commentBody i) "No Changeset found" = true) ∧
    (resolveDiscovery i.discovery).changedPackages = ["@fake-scope/fake-pkg"] ∧
    (resolveDiscovery i.discovery).reportedToSink = false ∧
    (resolveDiscovery DiscoveryResult.otherError).changedPackages =
      ["@fake-scope/fake-pkg"] ∧
    (resolveDiscovery DiscoveryResult.otherError).errFromFetchingChangedFiles = "" ∧
    (resolveDiscovery DiscoveryResult.otherError).reportedToSink = true := by
  refine ⟨?_, ?_, ?_, ?_, by rw [hdisc]; rfl, by rw [hdisc]; rfl, rfl, rfl, rfl⟩
  · rcases htype with h | h <;>
      cases hn : getNoteInfo i.discussionOrNotes i.username false
    · exact ⟨WriteAction.createDiscussion (commentBody i),
        by simp [comment, hbranch, hrel, h, hn], rfl⟩
    · case some info =>
        exact ⟨WriteAction.editDiscussionNote info.discussionId info.noteId
          (commentBody i), by simp [comment, hbranch, hrel, h, hn], rfl⟩
    · exact ⟨WriteAction.createNote (commentBody i),
        by simp [comment, hbranch, hrel, h, hn], rfl⟩
    · case some info =>
        exact ⟨WriteAction.editNote info.noteId (commentBody i),
          by simp [comment, hbranch, hrel, h, hn], rfl⟩
  · unfold commentBody
    rw [hdisc]
    exact strContains_append_of_right _ (strContains_self _)
  · intro hc
    unfold commentBody
    rw [if_pos hc]
    apply strContains_append_of_left
    unfold getApproveMessage
    repeat apply strContains_append_of_left
    decide
  · intro hc
    unfold commentBody
    rw [if_neg (by simp [hc])]
    apply strContains_append_of_left
    unfold getAbsentMessage
    repeat apply strContains_append_of_left
    decide

/-- A run whose discovery fails with a validation error. -/
def sampleInputsValidation : CommentInputs :=
  ⟨sampleEnvNote, "bot-user", [], [], DiscoveryResult.validationError "bad changeset",
    "slug-one"⟩

/-- Witness for C7 at a concrete validation failure. -/
theorem discovery_validation_error_recovery_witness :
    (∃ action, comment sampleInputsValidation = CommentResult.wrote action ∧
        action.bodyOf = commentBody sampleInputsValidation) ∧
    strContains (commentBody sampleInputsValidation)
        (validationErrorBlock "bad changeset") = true ∧
    strContains (commentBody sampleInputsValidation) "No Changeset found" = true := by
  have h := discovery_validation_error_recovery sampleInputsValidation "bad changeset"
    rfl (by decide) (by decide) (Or.inr rfl)
  exact ⟨h.1, h.2.1, h.2.2.2.1 (by decide)⟩

set_option maxRecDepth 8000 in
/-- C5 counterexample: for the non-null release plan with no releases and an
empty changeset list, the number of non-`none` entries is 0, yet the one-line
summary reads `no changesets` and the rendered block nowhere contains
`0 packages` — refuting that the summary says `N packages` whenever the count
is 0. -/
theorem release_plan_pluralization_counterexample :
    (publishableReleases ⟨[], []⟩).length = 0 ∧
    releasePlanSummary ⟨[], []⟩ = "no changesets" ∧
    strContains (getReleasePlanMessage (Option.some ⟨[], []⟩)) "0 packages" = false := by
  exact ⟨by decide, by decide, by decide⟩

/-- C5 (amended): for every non-null release plan the table rows are exactly
the header plus the entries whose bump type is not `none` (name and
capitalized bump type); with zero such entries the block body is the
explanatory placeholder instead of a table; and the package-count
pluralization (`1 package` exactly at count 1, `N packages` at 0 or ≥ 2)
applies to the one-line summary whenever the plan's changeset list is
nonempty, while an empty changeset list renders `no changesets` instead. -/
theorem release_plan_message_spec (plan : ReleasePlan) :
    (∀ row, row ∈ releasePlanTableRows plan ↔
        row = ["Name", "Type"] ∨
          ∃ x, x ∈ plan.releases ∧ x.type ≠ VersionType.none ∧
            row = [x.name, bumpTypeLabel x.type]) ∧
    ((publishableReleases plan).length = 0 →
        releasePlanDetails plan =
          "When changesets are added to this MR, you\x27ll see the packages that this MR includes changesets for and the associated semver types") ∧
    (0 < (publishableReleases plan).length →
        releasePlanDetails plan = markdownTable (releasePlanTableRows plan)) ∧
    (plan.changesets ≠ [] →
        releasePlanSummary plan =
          "changesets to release " ++
            (if (publishableReleases plan).length = 1 then "1 package"
             else toString (publishableReleases plan).length ++ " packages")) ∧
    (plan.changesets = [] → releasePlanSummary plan = "no changesets") ∧
    getReleasePlanMessage (Option.some plan) =
      "<details><summary>This MR includes " ++ releasePlanSummary plan ++
        "</summary>\n\n  " ++ releasePlanDetails plan ++ "\n\n</details>" := by
  refine ⟨?_, ?_, ?_, ?_, ?_, rfl⟩
  · intro row
    unfold releasePlanTableRows publishableReleases
    constructor
    · intro hrow
      rcases List.mem_cons.mp hrow with h | h
      · exact Or.inl h
      · rcases List.mem_map.mp h with ⟨x, hx, hrow'⟩
        rcases List.mem_filter.mp hx with ⟨hx1, hx2⟩
        exact Or.inr ⟨x, hx1, by simpa [bne_iff_ne] using hx2, hrow'.symm⟩
    · intro hrow
      rcases hrow with h | ⟨x, hx, hxt, hrow'⟩
      · exact List.mem_cons.mpr (Or.inl h)
      · exact List.mem_cons.mpr (Or.inr (List.mem_map.mpr ⟨x,
          List.mem_filter.mpr ⟨hx, by simpa [bne_iff_ne] using hxt⟩, hrow'.symm⟩))
  · intro h
    unfold releasePlanDetails
    rw [if_neg (by omega)]
  · intro h
    unfold releasePlanDetails
    rw [if_pos h]
  · intro h
    unfold releasePlanSummary
    rw [if_pos (List.length_pos.mpr h)]
  · intro h
    unfold releasePlanSummary
    rw [if_neg (by simp [h])]

/-- Witness for C5 (amended) at concrete plans: one patch release with one
changeset pluralizes to `1 package`; a plan whose only release is `none` and
whose changeset list is empty renders the placeholder details. -/
theorem release_plan_message_spec_witness :
    releasePlanSummary ⟨[⟨"pkg-a", VersionType.patch⟩], [⟨"cs-1"⟩]⟩ =
      "changesets to release 1 package" ∧
    releasePlanDetails ⟨[⟨"pkg-a", VersionType.none⟩], []⟩ =
      "When changesets are added to this MR, you\x27ll see the packages that this MR includes changesets for and the associated semver types" := by
  have h1 := (release_plan_message_spec ⟨[⟨"pkg-a", VersionType.patch⟩],
      [⟨"cs-1"⟩]⟩).2.2.2.1 (by decide)
  have h2 := (release_plan_message_spec ⟨[⟨"pkg-a", VersionType.none⟩],
      []⟩).2.1 (by decide)
  refine ⟨?_, h2⟩
  rw [h1]
  decide

set_option maxRecDepth 8000 in
/-- C6 counterexample: with a null release plan the absent message (at commit
`abc123` and deep link `https://example.com/new`) contains no `no changesets`
text at all, while the non-null plan with an empty changeset list does render
that summary — so the null-plan output is not the same. -/
theorem absent_message_null_plan_counterexample :
    strContains (getAbsentMessage "abc123" "https://example.com/new" Option.none)
        "no changesets" = false ∧
    strContains (getReleasePlanMessage (Option.some ⟨[], []⟩)) "no changesets" = true := by
  exact ⟨by decide, by decide⟩

set_option maxRecDepth 8000 in
/-- C6 (amended): when the release plan argument is null, the release-plan
block is the empty string, so `getAbsentMessage` contains no collapsible
summary block; the `no changesets` summary is produced for a non-null plan
with an empty changeset list, and for every commit SHA and deep-link URL the
two absent-message bodies differ. -/
theorem absent_message_null_plan_spec (commitSha url : String) :
    getReleasePlanMessage Option.none = "" ∧
    strContains (getReleasePlanMessage (Option.some ⟨[], []⟩)) "no changesets" = true ∧
    getAbsentMessage commitSha url Option.none ≠
      getAbsentMessage commitSha url (Option.some ⟨[], []⟩) := by
  refine ⟨rfl, by decide, ?_⟩
  intro h
  have hlen := congrArg String.length h
  simp only [getAbsentMessage, String.length_append] at hlen
  have h0 : (getReleasePlanMessage Option.none).length = 0 := rfl
  have h1 : 0 < (getReleasePlanMessage (Option.some ⟨[], []⟩)).length := by decide
  omega

/-- C10: `isGitLabAPIError` classifies a caught value exactly when it is an
`Error` whose `cause` is a truthy object all of whose own keys lie in
`{description, request, response}` — an empty-object cause or a cause missing
`request`/`response` also classifies — and the catch block re-raises the
original value unchanged, logging diagnostics exactly for classified values. -/
theorem isGitLabAPIError_spec :
    (∀ v, isGitLabAPIError v = true ↔
        ∃ keys, v = JsVal.errorV (CauseVal.objV keys) ∧
          ∀ key ∈ keys, key ∈ GITLAB_API_ERROR_CAUSE_KEYS) ∧
    isGitLabAPIError (JsVal.errorV (CauseVal.objV [])) = true ∧
    isGitLabAPIError (JsVal.errorV (CauseVal.objV ["description"])) = true ∧
    isGitLabAPIError (JsVal.errorV CauseVal.nullV) = false ∧
    isGitLabAPIError (JsVal.errorV CauseVal.truthyNonObject) = false ∧
    isGitLabAPIError JsVal.nonError = false ∧
    (∀ err, (commentCatch err).rethrown = err ∧
        (commentCatch err).loggedDiagnostics = isGitLabAPIError err) := by
  refine ⟨?_, by decide, by decide, by decide, by decide, by decide,
    fun err => ⟨rfl, rfl⟩⟩
  intro v
  cases v with
  | nonError => simp [isGitLabAPIError]
  | errorV cause =>
    cases cause <;>
      simp [isGitLabAPIError, causeTruthy, causeTypeofObject, causeOwnKeys,
        List.all_eq_true, List.contains_iff_exists_mem_beq, beq_iff_eq]

/-- Witness for C6 (amended) at a concrete commit SHA and deep link. -/
theorem absent_message_null_plan_spec_witness :
    getAbsentMessage "abc123" "https://example.com/new" Option.none ≠
      getAbsentMessage "abc123" "https://example.com/new" (Option.some ⟨[], []⟩) :=
  (absent_message_null_plan_spec "abc123" "https://example.com/new").2.2

/-- Witness for C8 at a concrete listing: the characterizing file of a
qualifying run exists. -/
theorem hasChangesetBeenAdded_spec_witness :
    ∃ f, f ∈ [ChangeFile.mk true ".changeset/foo.md"] ∧ f.new_file = true ∧
      changesetFileTest f.new_path = true ∧ f.new_path ≠ ".changeset/README.md" :=
  (hasChangesetBeenAdded_spec.1 [ChangeFile.mk true ".changeset/foo.md"]).mp (by decide)

/-- Witness for C10 at a concrete classified error value whose cause misses
`request` and `response`. -/
theorem isGitLabAPIError_spec_witness :
    ∃ keys, JsVal.errorV (CauseVal.objV ["description"]) =
        JsVal.errorV (CauseVal.objV keys) ∧
      ∀ key ∈ keys, key ∈ GITLAB_API_ERROR_CAUSE_KEYS :=
  (isGitLabAPIError_spec.1 (JsVal.errorV (CauseVal.objV ["description"]))).mp (by decide)

end ChangesetsGitlab

